import Mathlib

/-!
Verification of the InteractiveParticles simulation core (src/main.rs).

The source works on 2-D float vectors (glam Vec2 via macroquad); following the
specification's data model ("2D real vector") we embed the arithmetic over the
real numbers.  Every definition below is translated from the Rust source:
the wall-collision step, the pointer-interaction acceleration, drag,
semi-implicit Euler integration, particle initialization and the
slider-to-constant mapping functions.
-/

/-- 2-D vector with real components, embedding glam Vec2. -/
@[ext]
structure Vec2 where
  x : ℝ
  y : ℝ

instance : Add Vec2 := ⟨fun a b => ⟨a.x + b.x, a.y + b.y⟩⟩

instance : Sub Vec2 := ⟨fun a b => ⟨a.x - b.x, a.y - b.y⟩⟩

instance : Neg Vec2 := ⟨fun a => ⟨-a.x, -a.y⟩⟩

instance : SMul ℝ Vec2 := ⟨fun s v => ⟨s * v.x, s * v.y⟩⟩

noncomputable instance : HDiv Vec2 ℝ Vec2 := ⟨fun v s => ⟨v.x / s, v.y / s⟩⟩

instance : Zero Vec2 := ⟨⟨0, 0⟩⟩

@[simp]
theorem Vec2.add_x (a b : Vec2) : (a + b).x = a.x + b.x := rfl

@[simp]
theorem Vec2.add_y (a b : Vec2) : (a + b).y = a.y + b.y := rfl

@[simp]
theorem Vec2.sub_x (a b : Vec2) : (a - b).x = a.x - b.x := rfl

@[simp]
theorem Vec2.sub_y (a b : Vec2) : (a - b).y = a.y - b.y := rfl

@[simp]
theorem Vec2.neg_x (a : Vec2) : (-a).x = -a.x := rfl

@[simp]
theorem Vec2.neg_y (a : Vec2) : (-a).y = -a.y := rfl

@[simp]
theorem Vec2.smul_x (s : ℝ) (a : Vec2) : (s • a).x = s * a.x := rfl

@[simp]
theorem Vec2.smul_y (s : ℝ) (a : Vec2) : (s • a).y = s * a.y := rfl

@[simp]
theorem Vec2.hdiv_x (a : Vec2) (s : ℝ) : (a / s).x = a.x / s := rfl

@[simp]
theorem Vec2.hdiv_y (a : Vec2) (s : ℝ) : (a / s).y = a.y / s := rfl

@[simp]
theorem Vec2.zero_x : (0 : Vec2).x = 0 := rfl

@[simp]
theorem Vec2.zero_y : (0 : Vec2).y = 0 := rfl

/-- glam Vec2::length_squared, the dot product of the vector with itself. -/
def Vec2.length_squared (v : Vec2) : ℝ := v.x * v.x + v.y * v.y

/-- glam Vec2::length, the square root of length_squared. -/
noncomputable def Vec2.length (v : Vec2) : ℝ := Real.sqrt v.length_squared

/-- glam Vec2::clamp_length_max: rescale to the given maximal length when the
squared length exceeds its square, otherwise return the vector unchanged. -/
noncomputable def Vec2.clamp_length_max (v : Vec2) (m : ℝ) : Vec2 :=
  if v.length_squared > m * m then m • (v / Real.sqrt v.length_squared) else v

/-- Mat2::from_angle(angle).mul_vec2(v): rotation of v by the given angle. -/
noncomputable def rotate (angle : ℝ) (v : Vec2) : Vec2 :=
  ⟨Real.cos angle * v.x - Real.sin angle * v.y,
   Real.sin angle * v.x + Real.cos angle * v.y⟩

/-- Particle state: position, velocity, acceleration (src/main.rs, Particle). -/
@[ext]
structure Particle where
  pos : Vec2
  vel : Vec2
  acc : Vec2

/-- Simulation bounds rectangle (src/main.rs, Bounds). -/
structure Bounds where
  bottom_left : Vec2
  top_right : Vec2

/-- The set of interaction modes active this substep (keys Z, X, C). -/
structure Modes where
  attract : Bool
  repel : Bool
  swirl : Bool

/-- attract || repel || swirl, as computed in update_particles. -/
def Modes.is_interacting (m : Modes) : Bool := m.attract || m.repel || m.swirl

/-- Rust f32::clamp(lo, hi): lo when below lo, hi when above hi, else identity. -/
noncomputable def rclamp (x lo hi : ℝ) : ℝ :=
  if x < lo then lo else if x > hi then hi else x

/-- The x-axis wall bounce of update_particles: when pos.x is strictly outside
the bounds, clamp pos.x into the bounds and multiply vel.x by -1. -/
noncomputable def wallStepX (b : Bounds) (p : Particle) : Particle :=
  if p.pos.x < b.bottom_left.x ∨ p.pos.x > b.top_right.x then
    ⟨⟨rclamp p.pos.x b.bottom_left.x b.top_right.x, p.pos.y⟩,
     ⟨p.vel.x * (-1), p.vel.y⟩, p.acc⟩
  else p

/-- The y-axis wall bounce of update_particles. -/
noncomputable def wallStepY (b : Bounds) (p : Particle) : Particle :=
  if p.pos.y < b.bottom_left.y ∨ p.pos.y > b.top_right.y then
    ⟨⟨p.pos.x, rclamp p.pos.y b.bottom_left.y b.top_right.y⟩,
     ⟨p.vel.x, p.vel.y * (-1)⟩, p.acc⟩
  else p

/-- The full wall-collision step: x axis then y axis, as in the source. -/
noncomputable def wallStep (b : Bounds) (p : Particle) : Particle :=
  wallStepY b (wallStepX b p)

/-- The vector handed to the mode branches of update_particles:
diff = pos - interact_point, then
interact_force * diff / distance_squared / sqrt(distance_squared),
clamped to length 2000. -/
noncomputable def clampedInteractionVector (interact_force : ℝ)
    (pos interact_point : Vec2) : Vec2 :=
  let diff := pos - interact_point
  let distance_squared := diff.length_squared
  ((interact_force • diff) / distance_squared /
    Real.sqrt distance_squared).clamp_length_max 2000

/-- The pointer-interaction acceleration of update_particles: zero when no
mode is active; otherwise each active mode contributes the clamped vector:
attract subtracts it, repel adds it, swirl adds its rotation by pi/2. -/
noncomputable def interactAcc (m : Modes) (interact_force : ℝ)
    (pos interact_point : Vec2) : Vec2 :=
  if m.is_interacting then
    let acc := clampedInteractionVector interact_force pos interact_point
    (if m.attract then -acc else 0) + (if m.repel then acc else 0) +
      (if m.swirl then rotate (Real.pi / 2) acc else 0)
  else 0

/-- One per-substep update of a single particle, the loop body of
update_particles: wall bounce, acceleration reset plus pointer interaction,
quadratic drag, then semi-implicit Euler integration. -/
noncomputable def updateParticle (dt interact_force drag : ℝ) (bounds : Bounds)
    (interact_point : Vec2) (m : Modes) (p0 : Particle) : Particle :=
  let p := wallStep bounds p0
  let acc := interactAcc m interact_force p.pos interact_point -
    (drag * p.vel.length) • p.vel
  let vel := p.vel + dt • acc
  ⟨p.pos + dt • vel, vel, acc⟩

/-- update_particles over a list of particles. -/
noncomputable def update_particles (particles : List Particle)
    (dt interact_force drag : ℝ) (bounds : Bounds) (interact_point : Vec2)
    (m : Modes) : List Particle :=
  particles.map (updateParticle dt interact_force drag bounds interact_point m)

/-- initialize_particles: num_particles fresh particles, positions sampled by
the random generator within the bounds, velocity and acceleration zero.  The
external rand::gen_range is modelled by the sample argument, indexed by draw
number. -/
def initialize_particles (sample : ℕ → ℝ → ℝ → ℝ) (bounds : Bounds)
    (num_particles : ℕ) : List Particle :=
  (List.range num_particles).map fun i =>
    ⟨⟨sample (2 * i) bounds.bottom_left.x bounds.top_right.x,
      sample (2 * i + 1) bounds.bottom_left.y bounds.top_right.y⟩,
     ⟨0, 0⟩, ⟨0, 0⟩⟩

/-- convert_trail_length: 1 - ((0.8 * trail_length) / 100) ^ 0.05, with
MAX_TRAIL_LENGTH = 100 and real-power for f32::powf. -/
noncomputable def convert_trail_length (trail_length : ℝ) : ℝ :=
  1 - ((0.8 * trail_length) / 100) ^ (0.05 : ℝ)

/-- The pointer-interaction acceleration as claim C2 words it: the base vector
is force_constant * d / |d|^2 / |d| where d = pointer_position minus
particle_position; the clamped vector is subtracted when attract is active and
added when repel is active (swirl adds its rotation by pi/2, as in the code).
This definition follows the claim text, to be compared with interactAcc. -/
noncomputable def specInteractAccC2 (m : Modes) (force_constant : ℝ)
    (pos interact_point : Vec2) : Vec2 :=
  if m.is_interacting then
    let d := interact_point - pos
    let acc := ((force_constant • d) / d.length_squared /
        Real.sqrt d.length_squared).clamp_length_max 2000
    (if m.attract then -acc else 0) + (if m.repel then acc else 0) +
      (if m.swirl then rotate (Real.pi / 2) acc else 0)
  else 0

/-- The pointer-interaction acceleration as the amended claim C2 words it:
identical to specInteractAccC2 except that the displacement is taken from the
pointer to the particle, d = particle_position minus pointer_position. -/
noncomputable def specInteractAccC2Amended (m : Modes) (force_constant : ℝ)
    (pos interact_point : Vec2) : Vec2 :=
  if m.is_interacting then
    let d := pos - interact_point
    let acc := ((force_constant • d) / d.length_squared /
        Real.sqrt d.length_squared).clamp_length_max 2000
    (if m.attract then -acc else 0) + (if m.repel then acc else 0) +
      (if m.swirl then rotate (Real.pi / 2) acc else 0)
  else 0

/-!
Helper lemmas.
-/

@[simp]
theorem Vec2.add_zero (v : Vec2) : v + 0 = v := by
  ext <;> simp

@[simp]
theorem Vec2.zero_add (v : Vec2) : 0 + v = v := by
  ext <;> simp

@[simp]
theorem Vec2.smul_zero (s : ℝ) : s • (0 : Vec2) = 0 := by
  ext <;> simp

@[simp]
theorem Vec2.neg_mk (a b : ℝ) : (-(⟨a, b⟩ : Vec2)) = ⟨-a, -b⟩ := rfl

theorem sqrt_hundred : Real.sqrt 100 = 10 := by
  rw [show (100 : ℝ) = 10 ^ 2 by norm_num]
  exact Real.sqrt_sq (by norm_num)

theorem rotate_pi_div_two (v : Vec2) : rotate (Real.pi / 2) v = ⟨-v.y, v.x⟩ := by
  simp [rotate, Real.cos_pi_div_two, Real.sin_pi_div_two]

/-- The clamped interaction vector at particle (0,0), pointer (10,0), force
constant 100000: diff = (-10,0), squared distance 100, base vector
(-1000, 0), left unchanged by the 2000 clamp. -/
theorem clampedInteractionVector_example :
    clampedInteractionVector 100000 ⟨0, 0⟩ ⟨10, 0⟩ = ⟨-1000, 0⟩ := by
  unfold clampedInteractionVector Vec2.clamp_length_max
  simp only [Vec2.length_squared, Vec2.sub_x, Vec2.sub_y, Vec2.smul_x,
    Vec2.smul_y, Vec2.hdiv_x, Vec2.hdiv_y]
  norm_num [sqrt_hundred, Vec2.mk.injEq]
  ext <;> norm_num

/-!
Claim theorems.
-/

/-- Claim C4: a particle at (0,0) with the pointer at (10,0), force constant
100000 and only repel active receives interaction acceleration exactly
(-1000, 0). -/
theorem C4_repel_scenario :
    interactAcc ⟨false, true, false⟩ 100000 ⟨0, 0⟩ ⟨10, 0⟩ = ⟨-1000, 0⟩ := by
  simp only [interactAcc, Modes.is_interacting, clampedInteractionVector_example]
  norm_num

/-- Claim C5: with bounds [(-100,-100),(100,100)], a particle at (105,0) with
velocity (10,0), no mode active, drag 0 and dt 1, one substep clamps the
position to x = 100, flips the velocity to (-10,0) and integrates to (90,0). -/
theorem C5_wall_then_integrate :
    update_particles [⟨⟨105, 0⟩, ⟨10, 0⟩, ⟨0, 0⟩⟩] 1 100000 0
      ⟨⟨-100, -100⟩, ⟨100, 100⟩⟩ ⟨0, 0⟩ ⟨false, false, false⟩ =
      [⟨⟨90, 0⟩, ⟨-10, 0⟩, ⟨0, 0⟩⟩] := by
  have h : updateParticle 1 100000 0 ⟨⟨-100, -100⟩, ⟨100, 100⟩⟩ ⟨0, 0⟩
      ⟨false, false, false⟩ ⟨⟨105, 0⟩, ⟨10, 0⟩, ⟨0, 0⟩⟩ =
      ⟨⟨90, 0⟩, ⟨-10, 0⟩, ⟨0, 0⟩⟩ := by
    ext <;> norm_num [updateParticle, wallStep, wallStepX, wallStepY, rclamp,
      interactAcc, Modes.is_interacting]
  simp [update_particles, h]

/-- Claim C1 counterexample: with bounds [(-100,-100),(100,100)], a particle
exactly on the right boundary (pos.x = 100 = top_right.x) with outward
velocity vel.x = 10 is NOT flipped by the wall-collision step, because the
trigger uses strict inequalities; the claim says vel.x would become -10. -/
theorem C1_counterexample :
    (⟨⟨100, 0⟩, ⟨10, 0⟩, ⟨0, 0⟩⟩ : Particle).pos.x =
      (⟨⟨-100, -100⟩, ⟨100, 100⟩⟩ : Bounds).top_right.x ∧
    0 < (⟨⟨100, 0⟩, ⟨10, 0⟩, ⟨0, 0⟩⟩ : Particle).vel.x ∧
    (wallStep ⟨⟨-100, -100⟩, ⟨100, 100⟩⟩
      ⟨⟨100, 0⟩, ⟨10, 0⟩, ⟨0, 0⟩⟩).vel.x ≠ -10 := by
  refine ⟨rfl, by norm_num, ?_⟩
  norm_num [wallStep, wallStepX, wallStepY]

/-- The y-axis bounce does not touch the x components. -/
theorem wallStepY_pos_x (b : Bounds) (q : Particle) :
    (wallStepY b q).pos.x = q.pos.x := by
  unfold wallStepY
  split_ifs <;> rfl

/-- The y-axis bounce does not touch the x velocity. -/
theorem wallStepY_vel_x (b : Bounds) (q : Particle) :
    (wallStepY b q).vel.x = q.vel.x := by
  unfold wallStepY
  split_ifs <;> rfl

/-- The x-axis bounce does not touch the y components. -/
theorem wallStepX_pos_y (b : Bounds) (q : Particle) :
    (wallStepX b q).pos.y = q.pos.y := by
  unfold wallStepX
  split_ifs <;> rfl

/-- The x-axis bounce does not touch the y velocity. -/
theorem wallStepX_vel_y (b : Bounds) (q : Particle) :
    (wallStepX b q).vel.y = q.vel.y := by
  unfold wallStepX
  split_ifs <;> rfl

/-- rclamp lands in [lo, hi] whenever lo ≤ hi. -/
theorem rclamp_mem (x lo hi : ℝ) (h : lo ≤ hi) :
    lo ≤ rclamp x lo hi ∧ rclamp x lo hi ≤ hi := by
  unfold rclamp
  split_ifs <;> constructor <;> linarith

/-- After the x-axis bounce the x coordinate lies within the bounds. -/
theorem wallStepX_pos_x_mem (b : Bounds) (p : Particle)
    (hbx : b.bottom_left.x ≤ b.top_right.x) :
    b.bottom_left.x ≤ (wallStepX b p).pos.x ∧
      (wallStepX b p).pos.x ≤ b.top_right.x := by
  unfold wallStepX
  split_ifs with h
  · exact rclamp_mem _ _ _ hbx
  · push_neg at h
    exact h

/-- After the y-axis bounce the y coordinate lies within the bounds. -/
theorem wallStepY_pos_y_mem (b : Bounds) (q : Particle)
    (hby : b.bottom_left.y ≤ b.top_right.y) :
    b.bottom_left.y ≤ (wallStepY b q).pos.y ∧
      (wallStepY b q).pos.y ≤ b.top_right.y := by
  unfold wallStepY
  split_ifs with h
  · exact rclamp_mem _ _ _ hby
  · push_neg at h
    exact h

/-- Both triggers are silent on a particle whose position lies within the
bounds (boundary included), so the wall-collision step leaves it unchanged. -/
theorem wallStep_in_bounds_id (b : Bounds) (q : Particle)
    (h1x : b.bottom_left.x ≤ q.pos.x) (h2x : q.pos.x ≤ b.top_right.x)
    (h1y : b.bottom_left.y ≤ q.pos.y) (h2y : q.pos.y ≤ b.top_right.y) :
    wallStep b q = q := by
  have hx : ¬ (q.pos.x < b.bottom_left.x ∨ q.pos.x > b.top_right.x) := by
    push_neg
    exact ⟨h1x, h2x⟩
  have hy : ¬ (q.pos.y < b.bottom_left.y ∨ q.pos.y > b.top_right.y) := by
    push_neg
    exact ⟨h1y, h2y⟩
  have hX : wallStepX b q = q := by
    unfold wallStepX
    exact if_neg hx
  unfold wallStep
  rw [hX]
  unfold wallStepY
  exact if_neg hy

/-- Strictly beyond the right wall: clamp to top_right.x and flip vel.x. -/
theorem wallStepX_flip_high (b : Bounds) (p : Particle)
    (hbx : b.bottom_left.x ≤ b.top_right.x) (hx : b.top_right.x < p.pos.x) :
    (wallStepX b p).pos.x = b.top_right.x ∧
      (wallStepX b p).vel.x = -p.vel.x := by
  have h1 : ¬ p.pos.x < b.bottom_left.x := not_lt.mpr (hbx.trans hx.le)
  constructor <;> simp [wallStepX, rclamp, hx, h1]

/-- Strictly beyond the left wall: clamp to bottom_left.x and flip vel.x. -/
theorem wallStepX_flip_low (b : Bounds) (p : Particle)
    (hx : p.pos.x < b.bottom_left.x) :
    (wallStepX b p).pos.x = b.bottom_left.x ∧
      (wallStepX b p).vel.x = -p.vel.x := by
  constructor <;> simp [wallStepX, rclamp, hx]

/-- Strictly beyond the top wall: clamp to top_right.y and flip vel.y. -/
theorem wallStepY_flip_high (b : Bounds) (q : Particle)
    (hby : b.bottom_left.y ≤ b.top_right.y) (hy : b.top_right.y < q.pos.y) :
    (wallStepY b q).pos.y = b.top_right.y ∧
      (wallStepY b q).vel.y = -q.vel.y := by
  have h1 : ¬ q.pos.y < b.bottom_left.y := not_lt.mpr (hby.trans hy.le)
  constructor <;> simp [wallStepY, rclamp, hy, h1]

/-- Strictly beyond the bottom wall: clamp to bottom_left.y and flip vel.y. -/
theorem wallStepY_flip_low (b : Bounds) (q : Particle)
    (hy : q.pos.y < b.bottom_left.y) :
    (wallStepY b q).pos.y = b.bottom_left.y ∧
      (wallStepY b q).vel.y = -q.vel.y := by
  constructor <;> simp [wallStepY, rclamp, hy]

/-- Claim C1 amended: for any bounds rectangle satisfying the documented
invariant and any particle, whichever axis boundary the position lies
strictly beyond — left, right, bottom or top, and possibly one on each axis
at once — with that axis's velocity component pointing outward, one
wall-collision step clamps the position to that boundary and flips that
axis's velocity component; and unconditionally, applying the step to the
result a second time changes nothing, since the stepped position lies within
the bounds and the strict-inequality triggers no longer fire. -/
theorem C1_wall_flip_once (b : Bounds) (p : Particle)
    (hbx : b.bottom_left.x ≤ b.top_right.x)
    (hby : b.bottom_left.y ≤ b.top_right.y) :
    (b.top_right.x < p.pos.x → 0 ≤ p.vel.x →
      (wallStep b p).pos.x = b.top_right.x ∧
      (wallStep b p).vel.x = -p.vel.x) ∧
    (p.pos.x < b.bottom_left.x → p.vel.x ≤ 0 →
      (wallStep b p).pos.x = b.bottom_left.x ∧
      (wallStep b p).vel.x = -p.vel.x) ∧
    (b.top_right.y < p.pos.y → 0 ≤ p.vel.y →
      (wallStep b p).pos.y = b.top_right.y ∧
      (wallStep b p).vel.y = -p.vel.y) ∧
    (p.pos.y < b.bottom_left.y → p.vel.y ≤ 0 →
      (wallStep b p).pos.y = b.bottom_left.y ∧
      (wallStep b p).vel.y = -p.vel.y) ∧
    wallStep b (wallStep b p) = wallStep b p := by
  refine ⟨?_, ?_, ?_, ?_, ?_⟩
  · intro hx _
    have h := wallStepX_flip_high b p hbx hx
    unfold wallStep
    rw [wallStepY_pos_x, wallStepY_vel_x]
    exact h
  · intro hx _
    have h := wallStepX_flip_low b p hx
    unfold wallStep
    rw [wallStepY_pos_x, wallStepY_vel_x]
    exact h
  · intro hy _
    have hy' : b.top_right.y < (wallStepX b p).pos.y := by
      rwa [wallStepX_pos_y]
    have h := wallStepY_flip_high b (wallStepX b p) hby hy'
    rw [wallStepX_vel_y] at h
    unfold wallStep
    exact h
  · intro hy _
    have hy' : (wallStepX b p).pos.y < b.bottom_left.y := by
      rwa [wallStepX_pos_y]
    have h := wallStepY_flip_low b (wallStepX b p) hy'
    rw [wallStepX_vel_y] at h
    unfold wallStep
    exact h
  · have hmx := wallStepX_pos_x_mem b p hbx
    have hmy := wallStepY_pos_y_mem b (wallStepX b p) hby
    refine wallStep_in_bounds_id b (wallStep b p) ?_ ?_ ?_ ?_
    · unfold wallStep
      rw [wallStepY_pos_x]
      exact hmx.1
    · unfold wallStep
      rw [wallStepY_pos_x]
      exact hmx.2
    · unfold wallStep
      exact hmy.1
    · unfold wallStep
      exact hmy.2

/-- Witness for C1_wall_flip_once at bounds [(-100,-100),(100,100)] and a
particle at (105,-103) — strictly beyond the right and bottom walls at once —
with outward velocity (10,-5). -/
theorem C1_wall_flip_once_witness :
    ((100 : ℝ) < 105 → (0 : ℝ) ≤ 10 →
      (wallStep ⟨⟨-100, -100⟩, ⟨100, 100⟩⟩
        ⟨⟨105, -103⟩, ⟨10, -5⟩, ⟨0, 0⟩⟩).pos.x = 100 ∧
      (wallStep ⟨⟨-100, -100⟩, ⟨100, 100⟩⟩
        ⟨⟨105, -103⟩, ⟨10, -5⟩, ⟨0, 0⟩⟩).vel.x = -10) ∧
    ((105 : ℝ) < -100 → (10 : ℝ) ≤ 0 →
      (wallStep ⟨⟨-100, -100⟩, ⟨100, 100⟩⟩
        ⟨⟨105, -103⟩, ⟨10, -5⟩, ⟨0, 0⟩⟩).pos.x = -100 ∧
      (wallStep ⟨⟨-100, -100⟩, ⟨100, 100⟩⟩
        ⟨⟨105, -103⟩, ⟨10, -5⟩, ⟨0, 0⟩⟩).vel.x = -10) ∧
    ((100 : ℝ) < -103 → (0 : ℝ) ≤ -5 →
      (wallStep ⟨⟨-100, -100⟩, ⟨100, 100⟩⟩
        ⟨⟨105, -103⟩, ⟨10, -5⟩, ⟨0, 0⟩⟩).pos.y = 100 ∧
      (wallStep ⟨⟨-100, -100⟩, ⟨100, 100⟩⟩
        ⟨⟨105, -103⟩, ⟨10, -5⟩, ⟨0, 0⟩⟩).vel.y = -(-5)) ∧
    ((-103 : ℝ) < -100 → (-5 : ℝ) ≤ 0 →
      (wallStep ⟨⟨-100, -100⟩, ⟨100, 100⟩⟩
        ⟨⟨105, -103⟩, ⟨10, -5⟩, ⟨0, 0⟩⟩).pos.y = -100 ∧
      (wallStep ⟨⟨-100, -100⟩, ⟨100, 100⟩⟩
        ⟨⟨105, -103⟩, ⟨10, -5⟩, ⟨0, 0⟩⟩).vel.y = -(-5)) ∧
    wallStep ⟨⟨-100, -100⟩, ⟨100, 100⟩⟩
        (wallStep ⟨⟨-100, -100⟩, ⟨100, 100⟩⟩
          ⟨⟨105, -103⟩, ⟨10, -5⟩, ⟨0, 0⟩⟩) =
      wallStep ⟨⟨-100, -100⟩, ⟨100, 100⟩⟩
        ⟨⟨105, -103⟩, ⟨10, -5⟩, ⟨0, 0⟩⟩ :=
  C1_wall_flip_once ⟨⟨-100, -100⟩, ⟨100, 100⟩⟩
    ⟨⟨105, -103⟩, ⟨10, -5⟩, ⟨0, 0⟩⟩ (by norm_num) (by norm_num)

/-- Claim C2 counterexample: at the particle (0,0), pointer (10,0), force
constant 100000 and attract only, the code produces acceleration (1000, 0)
(toward the pointer) while the claim's formula produces (-1000, 0): the code
computes the displacement as particle minus pointer, not pointer minus
particle as the claim states. -/
theorem C2_counterexample :
    interactAcc ⟨true, false, false⟩ 100000 ⟨0, 0⟩ ⟨10, 0⟩ ≠
      specInteractAccC2 ⟨true, false, false⟩ 100000 ⟨0, 0⟩ ⟨10, 0⟩ := by
  have h1 : interactAcc ⟨true, false, false⟩ 100000 ⟨0, 0⟩ ⟨10, 0⟩ =
      ⟨1000, 0⟩ := by
    simp only [interactAcc, Modes.is_interacting, clampedInteractionVector_example]
    norm_num [Vec2.mk.injEq]
  have h2 : specInteractAccC2 ⟨true, false, false⟩ 100000 ⟨0, 0⟩ ⟨10, 0⟩ =
      ⟨-1000, 0⟩ := by
    simp only [specInteractAccC2, Modes.is_interacting, Vec2.clamp_length_max,
      Vec2.length_squared, Vec2.sub_x, Vec2.sub_y, Vec2.smul_x, Vec2.smul_y,
      Vec2.hdiv_x, Vec2.hdiv_y]
    norm_num [sqrt_hundred]
    ext <;> norm_num
  rw [h1, h2]
  norm_num [Vec2.mk.injEq]

/-- Claim C2 amended: the pointer-interaction step computes the base vector
force_constant * d / |d|^2 / |d| with d the displacement from the pointer to
the particle (d = particle_position minus pointer_position); the clamped
vector is subtracted from the acceleration when attract is active and added
when repel is active (and its rotation by pi/2 added when swirl is active). -/
theorem C2_interaction_formula (m : Modes) (F : ℝ) (pos interact_point : Vec2) :
    interactAcc m F pos interact_point =
      specInteractAccC2Amended m F pos interact_point := rfl

/-- Claim C3 counterexample: the trail-alpha mapping at slider value 0
returns exactly 1, which is not strictly less than 1, contradicting the
claimed codomain [0,1). -/
theorem C3_counterexample :
    convert_trail_length 0 = 1 ∧ ¬ convert_trail_length 0 < 1 := by
  have h : convert_trail_length 0 = 1 := by
    unfold convert_trail_length
    rw [show ((0.8 * 0) / 100 : ℝ) = 0 by norm_num,
      Real.zero_rpow (by norm_num)]
    norm_num
  exact ⟨h, by rw [h]; exact lt_irrefl 1⟩

/-- Claim C3 amended: for every slider value f in [0,100] the trail-alpha
mapping 1 - ((0.8*f)/100)^0.05 returns a value in [0,1]; it is strictly less
than 1 for every f in (0,100], and equals exactly 1 at f = 0. -/
theorem C3_trail_alpha_range (f : ℝ) (h0 : 0 ≤ f) (h1 : f ≤ 100) :
    0 ≤ convert_trail_length f ∧ convert_trail_length f ≤ 1 ∧
    (0 < f → convert_trail_length f < 1) ∧
    (f = 0 → convert_trail_length f = 1) := by
  have hx0 : (0 : ℝ) ≤ 0.8 * f / 100 := by
    apply div_nonneg _ (by norm_num)
    linarith
  have hx1 : (0.8 : ℝ) * f / 100 ≤ 1 := by linarith
  unfold convert_trail_length
  refine ⟨?_, ?_, ?_, ?_⟩
  · have := Real.rpow_le_one hx0 hx1 (by norm_num : (0 : ℝ) ≤ 0.05)
    linarith
  · have := Real.rpow_nonneg hx0 (0.05 : ℝ)
    linarith
  · intro hf
    have hxpos : (0 : ℝ) < 0.8 * f / 100 :=
      div_pos (by linarith) (by norm_num)
    have := Real.rpow_pos_of_pos hxpos (0.05 : ℝ)
    linarith
  · intro hf
    subst hf
    rw [show ((0.8 * 0) / 100 : ℝ) = 0 by norm_num,
      Real.zero_rpow (by norm_num)]
    norm_num

/-- Witness for C3_trail_alpha_range at slider value 50. -/
theorem C3_trail_alpha_range_witness :
    0 ≤ convert_trail_length 50 ∧ convert_trail_length 50 ≤ 1 ∧
    ((0 : ℝ) < 50 → convert_trail_length 50 < 1) ∧
    ((50 : ℝ) = 0 → convert_trail_length 50 = 1) :=
  C3_trail_alpha_range 50 (by norm_num) (by norm_num)

/-- Claim C6: for every force constant, particle position and pointer
position, the interaction acceleration with attract and swirl both active is
the vector sum of the attract-only and swirl-only accelerations on the same
inputs. -/
theorem C6_additivity (F : ℝ) (pos interact_point : Vec2) :
    interactAcc ⟨true, false, true⟩ F pos interact_point =
      interactAcc ⟨true, false, false⟩ F pos interact_point +
        interactAcc ⟨false, false, true⟩ F pos interact_point := by
  ext <;> simp [interactAcc, Modes.is_interacting]

/-- The vector returned by clamp_length_max has length at most the (nonneg)
bound. -/
theorem Vec2.length_clamp_le (v : Vec2) (m : ℝ) (hm : 0 ≤ m) :
    (v.clamp_length_max m).length ≤ m := by
  unfold Vec2.clamp_length_max
  split_ifs with h
  · have hls : 0 < v.length_squared := lt_of_le_of_lt (mul_self_nonneg m) h
    have hss : Real.sqrt v.length_squared * Real.sqrt v.length_squared =
        v.length_squared := Real.mul_self_sqrt hls.le
    have hexp : (m • (v / Real.sqrt v.length_squared)).length_squared =
        m * m * (v.length_squared /
          (Real.sqrt v.length_squared * Real.sqrt v.length_squared)) := by
      simp only [Vec2.length_squared, Vec2.smul_x, Vec2.smul_y, Vec2.hdiv_x,
        Vec2.hdiv_y]
      ring
    have hkey : (m • (v / Real.sqrt v.length_squared)).length_squared = m * m := by
      rw [hexp, hss, div_self (ne_of_gt hls), mul_one]
    unfold Vec2.length
    rw [hkey, Real.sqrt_mul_self hm]
  · have hle : v.length_squared ≤ m * m := not_lt.mp h
    unfold Vec2.length
    calc Real.sqrt v.length_squared ≤ Real.sqrt (m * m) := Real.sqrt_le_sqrt hle
    _ = m := Real.sqrt_mul_self hm

/-- Claim C7: for every force constant and every particle and pointer with
nonzero separation, the clamped interaction vector handed to the mode
branches has magnitude at most 2000. -/
theorem C7_clamped_magnitude (F : ℝ) (pos interact_point : Vec2)
    (h : pos ≠ interact_point) :
    (clampedInteractionVector F pos interact_point).length ≤ 2000 := by
  unfold clampedInteractionVector
  exact Vec2.length_clamp_le _ 2000 (by norm_num)

/-- Witness for C7_clamped_magnitude at particle (0,0), pointer (10,0). -/
theorem C7_clamped_magnitude_witness :
    (clampedInteractionVector 100000 ⟨0, 0⟩ ⟨10, 0⟩).length ≤ 2000 :=
  C7_clamped_magnitude 100000 ⟨0, 0⟩ ⟨10, 0⟩ (by
    intro h
    have hx := congrArg Vec2.x h
    norm_num at hx)

/-- Claim C8: for every particle count, bounds rectangle (with its
bottom-left below its top-right, the documented Bounds invariant) and any
in-range sampler modelling rand::gen_range, initialize_particles returns
exactly num_particles particles, each with position inside the bounds and
velocity and acceleration exactly zero. -/
theorem C8_reset_particles (sample : ℕ → ℝ → ℝ → ℝ) (b : Bounds) (n : ℕ)
    (hs : ∀ i lo hi, lo ≤ hi → lo ≤ sample i lo hi ∧ sample i lo hi ≤ hi)
    (hbx : b.bottom_left.x ≤ b.top_right.x)
    (hby : b.bottom_left.y ≤ b.top_right.y) :
    (initialize_particles sample b n).length = n ∧
    ∀ p ∈ initialize_particles sample b n,
      (b.bottom_left.x ≤ p.pos.x ∧ p.pos.x ≤ b.top_right.x ∧
       b.bottom_left.y ≤ p.pos.y ∧ p.pos.y ≤ b.top_right.y) ∧
      p.vel = 0 ∧ p.acc = 0 := by
  constructor
  · simp [initialize_particles]
  · intro p hp
    simp only [initialize_particles, List.mem_map, List.mem_range] at hp
    obtain ⟨i, hi, rfl⟩ := hp
    exact ⟨⟨(hs _ _ _ hbx).1, (hs _ _ _ hbx).2, (hs _ _ _ hby).1,
      (hs _ _ _ hby).2⟩, rfl, rfl⟩

/-- Witness for C8_reset_particles with the sampler returning the lower end,
bounds [(0,0),(1,1)] and two particles. -/
theorem C8_reset_particles_witness :
    (initialize_particles (fun _ lo _ => lo) ⟨⟨0, 0⟩, ⟨1, 1⟩⟩ 2).length = 2 ∧
    ∀ p ∈ initialize_particles (fun _ lo _ => lo) ⟨⟨0, 0⟩, ⟨1, 1⟩⟩ 2,
      ((0 : ℝ) ≤ p.pos.x ∧ p.pos.x ≤ 1 ∧ (0 : ℝ) ≤ p.pos.y ∧ p.pos.y ≤ 1) ∧
      p.vel = 0 ∧ p.acc = 0 :=
  C8_reset_particles (fun _ lo _ => lo) ⟨⟨0, 0⟩, ⟨1, 1⟩⟩ 2
    (fun _ lo _ h => ⟨le_refl lo, h⟩) (by norm_num) (by norm_num)

/-- Claim C9: with attract and repel both active and swirl inactive, the two
branch contributions cancel exactly: the interaction acceleration is the zero
vector, and the whole per-substep update coincides with the update with no
mode active. -/
theorem C9_attract_repel_cancel (dt F drag : ℝ) (b : Bounds)
    (interact_point : Vec2) (p : Particle) :
    interactAcc ⟨true, true, false⟩ F p.pos interact_point = 0 ∧
    updateParticle dt F drag b interact_point ⟨true, true, false⟩ p =
      updateParticle dt F drag b interact_point ⟨false, false, false⟩ p := by
  have h0 : ∀ q : Vec2, interactAcc ⟨true, true, false⟩ F q interact_point = 0 := by
    intro q
    ext <;> simp [interactAcc, Modes.is_interacting]
  have hn : ∀ q : Vec2, interactAcc ⟨false, false, false⟩ F q interact_point = 0 := by
    intro q
    simp [interactAcc, Modes.is_interacting]
  refine ⟨h0 _, ?_⟩
  simp only [updateParticle]
  rw [h0, hn]

/-- The x-axis wall bounce preserves the squared speed. -/
theorem wallStepX_vel_sq (b : Bounds) (p : Particle) :
    ((wallStepX b p).vel).length_squared = (p.vel).length_squared := by
  unfold wallStepX
  split_ifs
  · simp only [Vec2.length_squared]
    ring
  · rfl

/-- The y-axis wall bounce preserves the squared speed. -/
theorem wallStepY_vel_sq (b : Bounds) (p : Particle) :
    ((wallStepY b p).vel).length_squared = (p.vel).length_squared := by
  unfold wallStepY
  split_ifs
  · simp only [Vec2.length_squared]
    ring
  · rfl

/-- The wall-collision step preserves the squared speed. -/
theorem wallStep_vel_sq (b : Bounds) (p : Particle) :
    ((wallStep b p).vel).length_squared = (p.vel).length_squared := by
  unfold wallStep
  rw [wallStepY_vel_sq, wallStepX_vel_sq]

/-- Claim C10: with no interaction mode active and drag constant 0, one
per-substep update preserves the particle's speed. -/
theorem C10_speed_preserved (dt F : ℝ) (b : Bounds) (interact_point : Vec2)
    (p : Particle) :
    ((updateParticle dt F 0 b interact_point ⟨false, false, false⟩ p).vel).length =
      (p.vel).length := by
  have hacc : interactAcc ⟨false, false, false⟩ F (wallStep b p).pos
      interact_point - ((0 : ℝ) * ((wallStep b p).vel).length) •
      (wallStep b p).vel = 0 := by
    ext <;> simp [interactAcc, Modes.is_interacting]
  have hvel : (updateParticle dt F 0 b interact_point ⟨false, false, false⟩
      p).vel = (wallStep b p).vel := by
    show (wallStep b p).vel + dt • (interactAcc ⟨false, false, false⟩ F
      (wallStep b p).pos interact_point -
      ((0 : ℝ) * ((wallStep b p).vel).length) • (wallStep b p).vel) =
      (wallStep b p).vel
    rw [hacc, Vec2.smul_zero, Vec2.add_zero]
  rw [hvel]
  unfold Vec2.length
  rw [wallStep_vel_sq]
